import Mathlib

set_option maxRecDepth 8000

/-!
Shallow embedding of the validation-error normalization engine and the
response contract enforcer of fastify-errors-properties.

The embedded source functions are `niceJoin`, the formatter registry
`validationMessagesFormatters`, `convertValidationErrors` and the
pre-serialization hook installed by `addResponseValidation` (all from
src/unnamed/part_001), and the path walker `get` from src/lib/utils.js
(embedded in the `utils` namespace).  JavaScript strings are modelled as
Lean `String` values, with the regex-based replacements of the source
reimplemented as explicit scanners over `List Char`.  JSON documents are
modelled by the inductive type `JsonValue`; the external dependency
`lodash.get` (used by the `pattern` branch of the source) is modelled by
`lodashGet`.
-/

/-- JSON-like values: the payloads and input documents the source operates on. -/
inductive JsonValue where
  | null
  | boolean (b : Bool)
  | number (n : Int)
  | string (s : String)
  | array (items : List JsonValue)
  | object (fields : List (String × JsonValue))

/-- The single-quote character, written via its code point. -/
def squote : Char := Char.ofNat 39

/-- Whether a character is one of the two JavaScript quote characters,
as accepted by the quote-stripping regex of the source. -/
def isQuoteChar (c : Char) : Bool := c = '"' || c = squote

/-- Numeric value of a digit string, as computed by JavaScript parseInt
on a string of decimal digits. -/
def natOfDigits (l : List Char) : Nat :=
  l.foldl (fun acc c => acc * 10 + (c.toNat - 48)) 0

/-- JavaScript String.prototype.trim: drop whitespace from both ends. -/
def trimChars (l : List Char) : List Char :=
  ((l.dropWhile Char.isWhitespace).reverse.dropWhile Char.isWhitespace).reverse

/-- JavaScript String.prototype.split with separator ".": splitting the
empty string yields one empty piece, like in JavaScript. -/
def splitOnDot : List Char → List (List Char)
  | [] => [[]]
  | c :: rest =>
    let r := splitOnDot rest
    if c = '.' then [] :: r
    else
      match r with
      | t :: ts => (c :: t) :: ts
      | [] => [[c]]

/-- Whether the first list is a prefix of the second. -/
def hasPrefixL : List Char → List Char → Bool
  | [], _ => true
  | _ :: _, [] => false
  | a :: as, b :: bs => a = b && hasPrefixL as bs

/-- Whether the first list occurs as a contiguous run inside the second. -/
def containsL (needle : List Char) : List Char → Bool
  | [] => needle.isEmpty
  | c :: t => hasPrefixL needle (c :: t) || containsL needle t

/-- Substring test on strings, used to state the "message contains the
status code" parts of the enforcer claims. -/
def containsStr (needle hay : String) : Bool := containsL needle.data hay.data

/-- Embeds `niceJoin` from src/unnamed/part_001.  The source has default
arguments lastSeparator = " and " and separator = ", "; call sites below
pass them explicitly. -/
def niceJoin (array : List String) (lastSeparator : String) (separator : String) : String :=
  match array with
  | [] => ""
  | [a] => a
  | [a, b] => a ++ lastSeparator ++ b
  | _ => String.intercalate separator array.dropLast ++ lastSeparator ++ array.getLastD ""

/-- Scanner for the global regex replacement of "(?:" by "(" performed by
the pattern formatter of the source. -/
def stripNonCapturing : List Char → List Char
  | '(' :: '?' :: ':' :: rest => '(' :: stripNonCapturing rest
  | c :: rest => c :: stripNonCapturing rest
  | [] => []

namespace validationMessagesFormatters

def contentType : String :=
  "only JSON payloads are accepted. Please set the \"Content-Type\" header to start with \"application/json\""

def json : String := "the body payload is not a valid JSON"

def jsonEmpty : String := "the JSON body payload cannot be empty if the \"Content-Type\" header is set"

def missing : String := "must be present"

def unknown : String := "is not a valid property"

def uuid : String := "must be a valid GUID (UUID v4)"

def timestamp : String := "must be a valid ISO 8601 / RFC 3339 timestamp (example: 2018-07-06T12:34:56Z)"

def date : String := "must be a valid ISO 8601 / RFC 3339 date (example: 2018-07-06)"

def time : String := "must be a valid ISO 8601 / RFC 3339 time (example: 12:34:56)"

def hostname : String := "must be a valid hostname"

def ipv4 : String := "must be a valid IPv4"

def ipv6 : String := "must be a valid IPv6"

def paramType (type : String) : String :=
  if type = "integer" then "must be a valid integer number"
  else if type = "number" then "must be a valid number"
  else if type = "boolean" then "must be a valid boolean (true or false)"
  else if type = "object" then "must be a object"
  else if type = "array" then "must be an array"
  else "must be a string"

def presentString : String := "must be a non empty string"

def minimum (min : Int) : String :=
  "must be a number greater than or equal to " ++ toString min

def maximum (max : Int) : String :=
  "must be a number less than or equal to " ++ toString max

def minimumProperties (min : Int) : String :=
  if min = 1 then "cannot be a empty object"
  else "must be a object with at least " ++ toString min ++ " properties"

def maximumProperties (max : Int) : String :=
  if max = 0 then "must be a empty object"
  else "must be a object with at most " ++ toString max ++ " properties"

def minimumItems (min : Int) : String :=
  if min = 1 then "cannot be a empty array"
  else "must be an array with at least " ++ toString min ++ " items"

def maximumItems (max : Int) : String :=
  if max = 0 then "must be a empty array"
  else "must be an array with at most " ++ toString max ++ " items"

def enum (values : List String) : String :=
  "must be one of the following values: " ++
    niceJoin (values.map (fun f => "\"" ++ f ++ "\"")) " or " ", "

def pattern (p : String) : String :=
  "must match pattern \"" ++ String.mk (stripNonCapturing p.data) ++ "\""

def invalidResponseCode (code : Nat) : String :=
  "This endpoint cannot respond with HTTP status " ++ toString code ++ "."

def invalidResponse (code : Nat) : String :=
  "The response returned from the endpoint violates its specification for the HTTP status " ++ toString code ++ "."

def invalidFormat (format : String) : String :=
  "must match format \"" ++ format ++ "\" (format)"

end validationMessagesFormatters

/-- The keys of the validationMessagesFormatters object, in source order. -/
def registryKeys : List String :=
  ["contentType", "json", "jsonEmpty", "missing", "unknown", "uuid", "timestamp",
   "date", "time", "hostname", "ipv4", "ipv6", "paramType", "presentString",
   "minimum", "maximum", "minimumProperties", "maximumProperties", "minimumItems",
   "maximumItems", "enum", "pattern", "invalidResponseCode", "invalidResponse",
   "invalidFormat"]

/-- The dynamic lookup validationMessagesFormatters[name] applied to the string
`name` itself, as performed by the format branch of convertValidationErrors.
Formatters whose declared parameter is numeric interpolate the string argument
directly, as JavaScript template literals do.  Applying the enum formatter to a
string throws a TypeError in JavaScript (strings have no map method); the model
returns the empty string there, a case no real validator format name reaches. -/
def formatterStringApply (name : String) : Option String :=
  if name = "contentType" then some validationMessagesFormatters.contentType
  else if name = "json" then some validationMessagesFormatters.json
  else if name = "jsonEmpty" then some validationMessagesFormatters.jsonEmpty
  else if name = "missing" then some validationMessagesFormatters.missing
  else if name = "unknown" then some validationMessagesFormatters.unknown
  else if name = "uuid" then some validationMessagesFormatters.uuid
  else if name = "timestamp" then some validationMessagesFormatters.timestamp
  else if name = "date" then some validationMessagesFormatters.date
  else if name = "time" then some validationMessagesFormatters.time
  else if name = "hostname" then some validationMessagesFormatters.hostname
  else if name = "ipv4" then some validationMessagesFormatters.ipv4
  else if name = "ipv6" then some validationMessagesFormatters.ipv6
  else if name = "paramType" then some (validationMessagesFormatters.paramType name)
  else if name = "presentString" then some validationMessagesFormatters.presentString
  else if name = "minimum" then some ("must be a number greater than or equal to " ++ name)
  else if name = "maximum" then some ("must be a number less than or equal to " ++ name)
  else if name = "minimumProperties" then some ("must be a object with at least " ++ name ++ " properties")
  else if name = "maximumProperties" then some ("must be a object with at most " ++ name ++ " properties")
  else if name = "minimumItems" then some ("must be an array with at least " ++ name ++ " items")
  else if name = "maximumItems" then some ("must be an array with at most " ++ name ++ " items")
  else if name = "enum" then some ""
  else if name = "pattern" then some (validationMessagesFormatters.pattern name)
  else if name = "invalidResponseCode" then some ("This endpoint cannot respond with HTTP status " ++ name ++ ".")
  else if name = "invalidResponse" then some ("The response returned from the endpoint violates its specification for the HTTP status " ++ name ++ ".")
  else if name = "invalidFormat" then some (validationMessagesFormatters.invalidFormat name)
  else none

/-- The kind-specific params object of a raw validator failure.  Fields not
relevant to a given keyword default to neutral values; the source only reads
the field matching the keyword it dispatches on. -/
structure ValidationParams where
  missingProperty : String := ""
  additionalProperty : String := ""
  type : String := ""
  limit : Int := 0
  allowedValues : List String := []
  pattern : String := ""
  format : String := ""

/-- One raw validator failure record, as consumed by convertValidationErrors. -/
structure ValidationResult where
  keyword : String
  dataPath : String
  message : String
  params : ValidationParams

/-- Association-list lookup by string key; models JavaScript object property
access on the objects built by the embedded code. -/
def lookupAssoc {α : Type} : List (String × α) → String → Option α
  | [], _ => none
  | (k, v) :: t, k2 => if k = k2 then some v else lookupAssoc t k2

/-- JavaScript truthiness test on a possibly-absent JSON value, as applied by
the source to the value fetched from the input data (the negation !value). -/
def jsFalsy (v : Option JsonValue) : Bool :=
  match v with
  | none => true
  | some JsonValue.null => true
  | some (JsonValue.boolean b) => !b
  | some (JsonValue.number n) => n = 0
  | some (JsonValue.string s) => s.data.isEmpty
  | some (JsonValue.array _) => false
  | some (JsonValue.object _) => false

/-- Strip a pair of surrounding quote characters from a bracket token, as the
path parser of lodash does for quoted object keys. -/
def stripTokenQuotes (l : List Char) : List Char :=
  if (match l.head? with | some c => isQuoteChar c | none => false)
      && (match l.getLast? with | some c => isQuoteChar c | none => false)
      && l.length ≥ 2
  then (l.drop 1).dropLast
  else l

/-- Tokenizer for the model of the external dependency lodash.get: dots
separate plain tokens and square brackets delimit index or quoted-key tokens.
The fuel argument only bounds recursion; every step consumes at least one
character, so fuel equal to the length of the path is always sufficient. -/
def lodashTokens (fuel : Nat) (l : List Char) : List (List Char) :=
  match fuel, l with
  | 0, _ => []
  | _, [] => []
  | fuel + 1, '.' :: rest => lodashTokens fuel rest
  | fuel + 1, '[' :: rest =>
      stripTokenQuotes (rest.takeWhile (fun c => c ≠ ']')) ::
        lodashTokens fuel ((rest.dropWhile (fun c => c ≠ ']')).tail)
  | fuel + 1, c :: rest =>
      ((c :: rest).takeWhile (fun d => d ≠ '.' && d ≠ '[')) ::
        lodashTokens fuel ((c :: rest).dropWhile (fun d => d ≠ '.' && d ≠ '['))

/-- One property access of the lodash.get walk on a JSON value. -/
def jsAccessChars (v : JsonValue) (tok : List Char) : Option JsonValue :=
  match v with
  | JsonValue.object fields => lookupAssoc fields (String.mk tok)
  | JsonValue.array items =>
      if !tok.isEmpty && tok.all Char.isDigit then items.get? (natOfDigits tok) else none
  | _ => none

/-- Model of the external dependency lodash.get as imported by
src/unnamed/part_001: walk the path into the data, yielding none (undefined)
for an empty path or whenever an intermediate value is absent or null. -/
def lodashGet (data : JsonValue) (path : String) : Option JsonValue :=
  match lodashTokens path.data.length path.data with
  | [] => none
  | t :: ts =>
      (t :: ts).foldl
        (fun acc tok =>
          match acc with
          | none => none
          | some v => jsAccessChars v tok)
        (some data)

/-- The cosmetic rewriting of a leading "should" into "must" applied by the
fallback message of convertValidationErrors (regex replace of ^should). -/
def replaceShould (s : String) : String :=
  if s.data.take 6 = ['s', 'h', 'o', 'u', 'l', 'd']
  then String.mk (['m', 'u', 's', 't'] ++ s.data.drop 6)
  else s

/-- The format branch of convertValidationErrors: normalize date-time to
timestamp, then apply the registered formatter for that name, defaulting to
the invalidFormat formatter. -/
def formatBranch (format : String) : String :=
  let reason := if format = "date-time" then "timestamp" else format
  match formatterStringApply reason with
  | some m => m
  | none => validationMessagesFormatters.invalidFormat reason

/-- The switch statement of convertValidationErrors: given the failure record
and the cleaned-up key, produce the possibly-replaced key and the message (the
empty string when no case matched, triggering the generic fallback). -/
def dispatchKeyword (data : JsonValue) (e : ValidationResult) (key : List Char) :
    List Char × String :=
  if e.keyword = "required" ∨ e.keyword = "dependencies" then
    (e.params.missingProperty.data, validationMessagesFormatters.missing)
  else if e.keyword = "additionalProperties" then
    (e.params.additionalProperty.data, validationMessagesFormatters.unknown)
  else if e.keyword = "type" then
    (key, validationMessagesFormatters.paramType e.params.type)
  else if e.keyword = "minProperties" then
    (key, validationMessagesFormatters.minimumProperties e.params.limit)
  else if e.keyword = "maxProperties" then
    (key, validationMessagesFormatters.maximumProperties e.params.limit)
  else if e.keyword = "minItems" then
    (key, validationMessagesFormatters.minimumItems e.params.limit)
  else if e.keyword = "maxItems" then
    (key, validationMessagesFormatters.maximumItems e.params.limit)
  else if e.keyword = "minimum" then
    (key, validationMessagesFormatters.minimum e.params.limit)
  else if e.keyword = "maximum" then
    (key, validationMessagesFormatters.maximum e.params.limit)
  else if e.keyword = "enum" then
    (key, validationMessagesFormatters.enum e.params.allowedValues)
  else if e.keyword = "pattern" then
    (key,
      if e.params.pattern = ".+" ∧ jsFalsy (lodashGet data (String.mk key))
      then validationMessagesFormatters.presentString
      else validationMessagesFormatters.pattern e.params.pattern)
  else if e.keyword = "format" then
    (key, formatBranch e.params.format)
  else (key, "")

/-- The key normalization at the top of the per-error loop: strip one leading
dot, then one pair of surrounding square brackets. -/
def cleanDataPath (l : List Char) : List Char :=
  let l :=
    match l with
    | '.' :: r => r
    | _ => l
  if l.head? = some '[' ∧ l.getLast? = some ']' then (l.drop 1).dropLast else l

/-- Scanner for the global regex replacement of bracketed digit groups by
dotted indices.  The fuel argument only bounds recursion; every step consumes
at least one character, so fuel equal to the length of the input suffices. -/
def replaceArrayPathAux (fuel : Nat) (l : List Char) : List Char :=
  match fuel, l with
  | 0, l => l
  | _, [] => []
  | fuel + 1, c :: rest =>
    if c = '[' ∧ ¬(rest.takeWhile Char.isDigit).isEmpty ∧
        (rest.dropWhile Char.isDigit).head? = some ']' then
      '.' :: rest.takeWhile Char.isDigit ++
        replaceArrayPathAux fuel (rest.dropWhile Char.isDigit).tail
    else c :: replaceArrayPathAux fuel rest

def replaceArrayPath (l : List Char) : List Char := replaceArrayPathAux l.length l

/-- Scanner for the global regex replacement of bracketed object keys by
dotted keys (bracket content is any nonempty run without a closing bracket). -/
def replaceObjectPathAux (fuel : Nat) (l : List Char) : List Char :=
  match fuel, l with
  | 0, l => l
  | _, [] => []
  | fuel + 1, c :: rest =>
    if c = '[' ∧ ¬(rest.takeWhile (fun d => d ≠ ']')).isEmpty ∧
        (rest.dropWhile (fun d => d ≠ ']')).head? = some ']' then
      '.' :: rest.takeWhile (fun d => d ≠ ']') ++
        replaceObjectPathAux fuel (rest.dropWhile (fun d => d ≠ ']')).tail
    else c :: replaceObjectPathAux fuel rest

def replaceObjectPath (l : List Char) : List Char := replaceObjectPathAux l.length l

/-- The quote test of the source: the whole remaining property is one quote
character, a nonempty run of non-dot characters, and a closing quote. -/
def quotedDotFree (l : List Char) : Bool :=
  (match l.head? with | some c => isQuoteChar c | none => false)
    && (match l.getLast? with | some c => isQuoteChar c | none => false)
    && !((l.drop 1).dropLast.isEmpty)
    && (l.drop 1).dropLast.all (fun c => c ≠ '.')

/-- The property finalization at the bottom of the per-error loop: bracket
conversion, quote stripping, and the root sentinel for the empty property. -/
def finalizeProperty (key : List Char) : List Char :=
  let p := replaceObjectPath (replaceArrayPath key)
  let p := if quotedDotFree p then (p.drop 1).dropLast else p
  if p.isEmpty then ['$', 'r', 'o', 'o', 't'] else p

/-- The body of the per-error loop of convertValidationErrors: produce the
finalized property and the message for one failure record. -/
def processValidationError (data : JsonValue) (e : ValidationResult) : String × String :=
  let key := cleanDataPath e.dataPath.data
  let km := dispatchKeyword data e key
  let message := if km.2 = "" then replaceShould e.message ++ " (" ++ e.keyword ++ ")" else km.2
  (String.mk (finalizeProperty km.1), message)

/-- JavaScript object property assignment on the errors accumulator: replace
the value at an existing key in place, or append a new key at the end. -/
def insertEntry : List (String × String) → String → String → List (String × String)
  | [], k, v => [(k, v)]
  | (a, b) :: t, k, v => if a = k then (a, v) :: t else (a, b) :: insertEntry t k v

/-- The single-key result object of convertValidationErrors. -/
structure Validations where
  sectionKey : String
  errors : List (String × String)

/-- One iteration of the per-error loop of convertValidationErrors: assign
the message produced for the failure under its finalized property key. -/
def insertValidationError (data : JsonValue) (acc : List (String × String))
    (e : ValidationResult) : List (String × String) :=
  insertEntry acc (processValidationError data e).1 (processValidationError data e).2

/-- Embeds convertValidationErrors from src/unnamed/part_001. -/
def convertValidationErrors (sec : String) (data : JsonValue)
    (validationErrors : List ValidationResult) : Validations :=
  let sec := if sec = "querystring" then "query" else sec
  ⟨sec, validationErrors.foldl (insertValidationError data) []⟩

/-- The last failure of a list whose finalized property equals p, in input
order; used to state the last-write-wins invariant. -/
def lastErrorAt (data : JsonValue) (p : String) : List ValidationResult → Option ValidationResult
  | [] => none
  | e :: rest =>
    match lastErrorAt data p rest with
    | some x => some x
    | none => if (processValidationError data e).1 = p then some e else none

/-- The keywords given a dedicated case by the switch of
convertValidationErrors; every other keyword falls through to the generic
fallback message. -/
def handledKeywords : List String :=
  ["required", "dependencies", "additionalProperties", "type", "minProperties",
   "maxProperties", "minItems", "maxItems", "minimum", "maximum", "enum",
   "pattern", "format"]

def INTERNAL_SERVER_ERROR : Nat := 500

/-- Outcome of the pre-serialization hook: either the payload passes through
unchanged, or the request is failed with a createError of the given status,
message and optional failedValidations extra field. -/
inductive PreSerializationResult where
  | ok (payload : JsonValue)
  | err (statusCode : Nat) (message : String) (failedValidations : Option Validations)

/-- Embeds the preSerialization hook installed by addResponseValidation in
src/unnamed/part_001.  A compiled validator is modelled as a function from the
payload to the valid flag together with the validator errors it exposes. -/
def preSerializationHook
    (validators : List (String × (JsonValue → Bool × List ValidationResult)))
    (statusCode : Nat) (payload : JsonValue) : PreSerializationResult :=
  if statusCode = INTERNAL_SERVER_ERROR then PreSerializationResult.ok payload
  else
    match lookupAssoc validators (toString statusCode) with
    | none =>
        PreSerializationResult.err INTERNAL_SERVER_ERROR
          (validationMessagesFormatters.invalidResponseCode statusCode) none
    | some validator =>
        let r := validator payload
        if r.1 then PreSerializationResult.ok payload
        else
          PreSerializationResult.err INTERNAL_SERVER_ERROR
            (validationMessagesFormatters.invalidResponse statusCode)
            (some (convertValidationErrors "response" payload r.2))

/-- Embeds the registration phase of addResponseValidation: with no declared
response schemas nothing is installed; otherwise each per-status schema is
compiled once and the hook closes over the resulting validator table. -/
def addResponseValidation {Schema : Type}
    (compile : Schema → (JsonValue → Bool × List ValidationResult))
    (responseSchemas : Option (List (String × Schema))) :
    Option (Nat → JsonValue → PreSerializationResult) :=
  match responseSchemas with
  | none => none
  | some schemas =>
      some (preSerializationHook (schemas.map (fun kv => (kv.1, compile kv.2))))

namespace utils

/-- The token list of the path walker get from src/lib/utils.js:
split on dots and trim each token. -/
def tokens (path : String) : List String :=
  (splitOnDot path.data).map (fun t => String.mk (trimChars t))

/-- The regex match of src/lib/utils.js on one token: a leading digit run, or
failing that a trailing bracketed digit group, yields a numeric index. -/
def parseIndexToken (token : String) : Option Nat :=
  let l := token.data
  let lead := l.takeWhile Char.isDigit
  if ¬lead.isEmpty then some (natOfDigits lead)
  else
    match l.reverse with
    | ']' :: r =>
        let ds := r.takeWhile Char.isDigit
        if ¬ds.isEmpty ∧ (r.dropWhile Char.isDigit).head? = some '[' then
          some (natOfDigits ds.reverse)
        else none
    | _ => none

/-- JavaScript numeric indexing target[n]: arrays index positionally, objects
look up the decimal string, strings index their characters. -/
def jsIndexNum (v : JsonValue) (n : Nat) : Option JsonValue :=
  match v with
  | JsonValue.array items => items.get? n
  | JsonValue.object fields => lookupAssoc fields (toString n)
  | JsonValue.string s => (s.data.get? n).map (fun c => JsonValue.string (String.mk [c]))
  | _ => none

/-- JavaScript property access target[token] for a non-index token. -/
def jsProp (v : JsonValue) (token : String) : Option JsonValue :=
  match v with
  | JsonValue.object fields => lookupAssoc fields token
  | _ => none

/-- One iteration of the walk of src/lib/utils.js: stop with undefined as soon
as the current value is undefined or null, otherwise access by numeric index
when the token parses as one, else by property name. -/
def getStep (t : Option JsonValue) (token : String) : Option JsonValue :=
  match t with
  | none => none
  | some JsonValue.null => none
  | some v =>
      match parseIndexToken token with
      | some n => jsIndexNum v n
      | none => jsProp v token

/-- Embeds get from src/lib/utils.js. -/
def get (target : JsonValue) (path : String) : Option JsonValue :=
  (tokens path).foldl getStep (some target)

end utils

/-- A test validator used by witnesses: rejects every payload with no errors. -/
def alwaysInvalid : JsonValue → Bool × List ValidationResult := fun _ => (false, [])

theorem hasPrefixL_self_append (n t : List Char) : hasPrefixL n (n ++ t) = true := by
  induction n with
  | nil => rfl
  | cons a as ih => simp [hasPrefixL, ih]

theorem containsL_nil_needle (hay : List Char) : containsL [] hay = true := by
  cases hay with
  | nil => rfl
  | cons c t => simp [containsL, hasPrefixL]

theorem containsL_append_middle (h n t : List Char) : containsL n (h ++ n ++ t) = true := by
  induction h with
  | nil =>
    cases n with
    | nil => simpa using containsL_nil_needle t
    | cons a as =>
      simp only [containsL, List.nil_append, List.cons_append, Bool.or_eq_true]
      left
      exact hasPrefixL_self_append (a :: as) t
  | cons c h2 ih =>
    simp only [containsL, List.cons_append, Bool.or_eq_true]
    right
    exact ih

theorem containsStr_append_middle (a n c : String) : containsStr n (a ++ n ++ c) = true := by
  have hd : (a ++ n ++ c).data = a.data ++ n.data ++ c.data := by
    simp [String.data_append]
  rw [containsStr, hd]
  exact containsL_append_middle a.data n.data c.data

theorem lookupAssoc_insertEntry (l : List (String × String)) (k v k2 : String) :
    lookupAssoc (insertEntry l k v) k2 = if k2 = k then some v else lookupAssoc l k2 := by
  induction l with
  | nil =>
    by_cases h : k = k2
    · subst h; simp [insertEntry, lookupAssoc]
    · simp [insertEntry, lookupAssoc, h, Ne.symm h]
  | cons hd tl ih =>
    obtain ⟨a, b⟩ := hd
    by_cases hak : a = k
    · subst hak
      by_cases hk : k2 = a
      · subst hk; simp [insertEntry, lookupAssoc]
      · simp [insertEntry, lookupAssoc, hk, Ne.symm hk]
    · by_cases hk : a = k2
      · subst hk
        simp [insertEntry, lookupAssoc, hak, Ne.symm hak]
      · simp [insertEntry, lookupAssoc, hak, hk, ih]

theorem mem_keys_insertEntry (l : List (String × String)) (k v x : String) :
    x ∈ (insertEntry l k v).map Prod.fst ↔ x ∈ l.map Prod.fst ∨ x = k := by
  induction l with
  | nil => simp [insertEntry]
  | cons hd tl ih =>
    obtain ⟨a, b⟩ := hd
    by_cases hak : a = k
    · subst hak
      by_cases hx : x = a <;> simp [insertEntry, hx]
    · simp [insertEntry, hak, ih, or_assoc]

theorem nodup_keys_insertEntry (l : List (String × String)) (k v : String)
    (h : (l.map Prod.fst).Nodup) : ((insertEntry l k v).map Prod.fst).Nodup := by
  induction l with
  | nil => simp [insertEntry]
  | cons hd tl ih =>
    obtain ⟨a, b⟩ := hd
    simp only [List.map_cons, List.nodup_cons] at h
    by_cases hak : a = k
    · subst hak
      simpa [insertEntry, List.nodup_cons] using h
    · simp only [insertEntry, if_neg hak, List.map_cons]
      refine List.nodup_cons.mpr ⟨?_, ih h.2⟩
      intro hmem
      rcases (mem_keys_insertEntry tl k v a).mp hmem with hmem2 | heq
      · exact h.1 hmem2
      · exact hak heq

theorem lookupAssoc_foldl_insert (data : JsonValue) (p : String)
    (errs : List ValidationResult) :
    ∀ acc : List (String × String),
      lookupAssoc (errs.foldl (insertValidationError data) acc) p =
        (match lastErrorAt data p errs with
         | some e => some (processValidationError data e).2
         | none => lookupAssoc acc p) := by
  induction errs with
  | nil => intro acc; rfl
  | cons e rest ih =>
    intro acc
    rw [List.foldl_cons, ih]
    cases hlast : lastErrorAt data p rest with
    | some x => simp [lastErrorAt, hlast]
    | none =>
      simp only [lastErrorAt, hlast, insertValidationError]
      rw [lookupAssoc_insertEntry]
      by_cases hp : (processValidationError data e).1 = p
      · simp [hp]
      · simp [hp, Ne.symm hp]

theorem nodup_keys_foldl_insert (data : JsonValue) (errs : List ValidationResult) :
    ∀ acc : List (String × String), (acc.map Prod.fst).Nodup →
      ((errs.foldl (insertValidationError data) acc).map Prod.fst).Nodup := by
  induction errs with
  | nil => intro acc h; exact h
  | cons e rest ih =>
    intro acc h
    rw [List.foldl_cons]
    exact ih _ (nodup_keys_insertEntry _ _ _ h)

theorem pattern_ne_empty (q : String) : validationMessagesFormatters.pattern q ≠ "" := by
  intro h
  have h1 : (validationMessagesFormatters.pattern q).data.head? = some 'm' := rfl
  rw [h] at h1
  simp at h1

theorem invalidFormat_ne_empty (f : String) :
    validationMessagesFormatters.invalidFormat f ≠ "" := by
  intro h
  have h1 : (validationMessagesFormatters.invalidFormat f).data.head? = some 'm' := rfl
  rw [h] at h1
  simp at h1

theorem utilsFoldl_none (toks : List String) : toks.foldl utils.getStep none = none := by
  induction toks with
  | nil => rfl
  | cons t ts ih => rw [List.foldl_cons]; exact ih

/-- C10: in the path walker get of src/lib/utils.js, a dot-separated token
beginning with a digit run is interpreted as the numeric index given by its
leading digits — the token "2abc" indexes element 2 of an array, exactly as
the bare token "2" does — and once an intermediate value along the path is
undefined or null the walk stops and get returns undefined (none here)
instead of failing. -/
theorem utils_get_numeric_token_and_null_stop :
    (∀ xs : List JsonValue, utils.get (JsonValue.array xs) "2abc" = xs.get? 2)
    ∧ (∀ xs : List JsonValue,
        utils.get (JsonValue.array xs) "2abc" = utils.get (JsonValue.array xs) "2")
    ∧ (∀ toks : List String, toks.foldl utils.getStep none = none)
    ∧ (∀ (t : String) (toks : List String),
        (t :: toks).foldl utils.getStep (some JsonValue.null) = none)
    ∧ utils.get (JsonValue.object [("a", JsonValue.null)]) "a.b.c" = none := by
  refine ⟨fun xs => rfl, fun xs => rfl, utilsFoldl_none, ?_, rfl⟩
  intro t toks
  rw [List.foldl_cons]
  exact utilsFoldl_none toks

/-- C3: an outgoing response whose status code equals the generic
internal-error code (500) is never validated: the hook returns the payload
unchanged without failing and without consulting any compiled validator, even
when a validator is registered for the key "500". -/
theorem preSerialization_skips_internal_error :
    (∀ (validators : List (String × (JsonValue → Bool × List ValidationResult)))
        (payload : JsonValue),
        preSerializationHook validators INTERNAL_SERVER_ERROR payload =
          PreSerializationResult.ok payload)
    ∧ (∀ (f : JsonValue → Bool × List ValidationResult)
        (vs : List (String × (JsonValue → Bool × List ValidationResult)))
        (payload : JsonValue),
        preSerializationHook (("500", f) :: vs) 500 payload =
          PreSerializationResult.ok payload) :=
  ⟨fun _ _ => rfl, fun _ _ _ => rfl⟩

/-- C6: the output of convertValidationErrors is a single-key object whose key
is the section name with "querystring" rewritten to "query"; in particular a
call with section "querystring" never yields an object keyed "querystring". -/
theorem convertValidationErrors_section_alias (sec : String) (data : JsonValue)
    (errs : List ValidationResult) :
    (convertValidationErrors sec data errs).sectionKey =
      (if sec = "querystring" then "query" else sec)
    ∧ (convertValidationErrors "querystring" data errs).sectionKey = "query"
    ∧ (convertValidationErrors "querystring" data errs).sectionKey ≠ "querystring" := by
  refine ⟨rfl, rfl, ?_⟩
  intro h
  have h1 : (convertValidationErrors "querystring" data errs).sectionKey = "query" := rfl
  rw [h1] at h
  exact absurd h (by decide)

/-- C4: within one call of convertValidationErrors each finalized property
path maps to exactly one entry (the keys of the errors object are distinct),
and the message stored at a path is the message of the last failure in input
order whose finalized property equals that path — last write wins, with no
aggregation. -/
theorem convertValidationErrors_last_write_wins (sec : String) (data : JsonValue)
    (errs : List ValidationResult) (p : String) :
    lookupAssoc (convertValidationErrors sec data errs).errors p =
      (lastErrorAt data p errs).map (fun e => (processValidationError data e).2)
    ∧ ((convertValidationErrors sec data errs).errors.map Prod.fst).Nodup := by
  constructor
  · show lookupAssoc (errs.foldl (insertValidationError data) []) p = _
    rw [lookupAssoc_foldl_insert data p errs []]
    cases hx : lastErrorAt data p errs <;> simp [hx, lookupAssoc]
  · exact nodup_keys_foldl_insert data errs [] (by simp)

/-- C1: for a declared status code other than the internal-error code, the
pre-serialization hook fails the request exactly when the payload fails the
compiled validator for that code: a validating payload passes through
unchanged, and a non-validating payload turns into a 500 error carrying the
invalid-response message (which contains the status code) and
failedValidations equal to convertValidationErrors over the response section,
the payload and the validator errors. -/
theorem preSerialization_declared_status_iff_valid
    (validators : List (String × (JsonValue → Bool × List ValidationResult)))
    (code : Nat) (payload : JsonValue)
    (v : JsonValue → Bool × List ValidationResult)
    (hc : code ≠ INTERNAL_SERVER_ERROR)
    (hv : lookupAssoc validators (toString code) = some v) :
    (preSerializationHook validators code payload = PreSerializationResult.ok payload ↔
      (v payload).1 = true)
    ∧ ((v payload).1 = false →
        preSerializationHook validators code payload =
          PreSerializationResult.err INTERNAL_SERVER_ERROR
            (validationMessagesFormatters.invalidResponse code)
            (some (convertValidationErrors "response" payload (v payload).2))
        ∧ containsStr (toString code)
            (validationMessagesFormatters.invalidResponse code) = true) := by
  have hunf : preSerializationHook validators code payload =
      (if (v payload).1 then PreSerializationResult.ok payload
       else PreSerializationResult.err INTERNAL_SERVER_ERROR
         (validationMessagesFormatters.invalidResponse code)
         (some (convertValidationErrors "response" payload (v payload).2))) := by
    unfold preSerializationHook
    rw [if_neg hc, hv]
  have hcontains : containsStr (toString code)
      (validationMessagesFormatters.invalidResponse code) = true := by
    show containsStr (toString code)
      ("The response returned from the endpoint violates its specification for the HTTP status " ++
        toString code ++ ".") = true
    exact containsStr_append_middle _ _ _
  cases hval : (v payload).1 with
  | true => rw [hunf]; simp [hval]
  | false => rw [hunf]; simp [hval, hcontains]

/-- C2: for a route with declared response schemas, an outgoing status code
different from the internal-error code with no compiled validator makes the
hook fail the request with a 500 error whose message is the undeclared-status
message containing that status code; in particular a table declaring only a
200 validator answered with status 201 fails with a message containing 201. -/
theorem preSerialization_undeclared_status
    (validators : List (String × (JsonValue → Bool × List ValidationResult)))
    (code : Nat) (payload : JsonValue)
    (hc : code ≠ INTERNAL_SERVER_ERROR)
    (hv : lookupAssoc validators (toString code) = none) :
    (preSerializationHook validators code payload =
        PreSerializationResult.err INTERNAL_SERVER_ERROR
          (validationMessagesFormatters.invalidResponseCode code) none
      ∧ containsStr (toString code)
          (validationMessagesFormatters.invalidResponseCode code) = true)
    ∧ (∀ (f : JsonValue → Bool × List ValidationResult) (payload2 : JsonValue),
        preSerializationHook [("200", f)] 201 payload2 =
          PreSerializationResult.err INTERNAL_SERVER_ERROR
            (validationMessagesFormatters.invalidResponseCode 201) none
        ∧ containsStr "201"
            (validationMessagesFormatters.invalidResponseCode 201) = true) := by
  refine ⟨⟨?_, ?_⟩, ?_⟩
  · unfold preSerializationHook
    rw [if_neg hc, hv]
  · show containsStr (toString code)
      ("This endpoint cannot respond with HTTP status " ++ toString code ++ ".") = true
    exact containsStr_append_middle _ _ _
  · intro f payload2
    exact ⟨rfl, by decide⟩

/-- C5 counterexample: a failure at raw path "[2].name" under section "body"
does not yield the property key "2.name" claimed by the specification; the
code converts the leading bracket group to ".2" without re-stripping the
resulting leading dot, so the stored key is ".2.name". -/
theorem bracket_path_finalization_counterexample :
    ((convertValidationErrors "body" (JsonValue.object [])
        [{ keyword := "minimum", dataPath := "[2].name", message := "",
           params := { limit := 5 } }]).errors.map Prod.fst = [".2.name"])
    ∧ lookupAssoc (convertValidationErrors "body" (JsonValue.object [])
        [{ keyword := "minimum", dataPath := "[2].name", message := "",
           params := { limit := 5 } }]).errors "2.name" = none
    ∧ (".2.name" : String) ≠ "2.name" :=
  ⟨rfl, rfl, by decide⟩

/-- C5 (amended): bracket array and object notation is converted to dotted
notation (a bracket group at the start of the path yields a leading dot that
is not re-stripped), one pair of surrounding quote characters is stripped
when the whole remaining path is a quoted dot-free segment, and an empty path
becomes the sentinel root key; in particular raw path "[2].name" under
section "body" yields property key ".2.name", and the empty path yields the
root sentinel. -/
theorem convertValidationErrors_path_finalization :
    String.mk (finalizeProperty (cleanDataPath "[2].name".data)) = ".2.name"
    ∧ String.mk (finalizeProperty (cleanDataPath "".data)) = "$root"
    ∧ String.mk (finalizeProperty (cleanDataPath ".a[3].b".data)) = "a.3.b"
    ∧ String.mk (finalizeProperty (cleanDataPath "[\"x\"]".data)) = "x"
    ∧ (convertValidationErrors "body" (JsonValue.object [])
        [{ keyword := "minimum", dataPath := "[2].name", message := "",
           params := { limit := 5 } }]).errors =
        [(".2.name", "must be a number greater than or equal to 5")]
    ∧ (convertValidationErrors "body" (JsonValue.object [])
        [{ keyword := "exclusiveMinimum", dataPath := "", message := "should be > 0",
           params := {} }]).errors.map Prod.fst = ["$root"] :=
  ⟨rfl, rfl, rfl, rfl, rfl, rfl⟩

/-- C7: for a pattern-kind failure the original value is looked up inside the
input data at the cleaned-up (pre-finalization) path; when the pattern is the
sentinel ".+" and that value is falsy the message is the presentString
message, and otherwise it is the pattern message, whose display strips every
non-capturing-group marker while the raw failure record is left untouched. -/
theorem convertValidationErrors_pattern_handling (data : JsonValue)
    (e : ValidationResult) (h : e.keyword = "pattern") :
    (processValidationError data e).2 =
      (if e.params.pattern = ".+" ∧
          jsFalsy (lodashGet data (String.mk (cleanDataPath e.dataPath.data)))
       then validationMessagesFormatters.presentString
       else validationMessagesFormatters.pattern e.params.pattern)
    ∧ validationMessagesFormatters.pattern "(?:ab)+(?:c)" =
        "must match pattern \"(ab)+(c)\"" := by
  refine ⟨?_, rfl⟩
  have hdisp : dispatchKeyword data e (cleanDataPath e.dataPath.data) =
      (cleanDataPath e.dataPath.data,
        if e.params.pattern = ".+" ∧
            jsFalsy (lodashGet data (String.mk (cleanDataPath e.dataPath.data)))
        then validationMessagesFormatters.presentString
        else validationMessagesFormatters.pattern e.params.pattern) := by
    unfold dispatchKeyword
    rw [h]
    rw [if_neg (by decide), if_neg (by decide), if_neg (by decide), if_neg (by decide),
      if_neg (by decide), if_neg (by decide), if_neg (by decide), if_neg (by decide),
      if_neg (by decide), if_neg (by decide), if_pos rfl]
  have hne : (if e.params.pattern = ".+" ∧
      jsFalsy (lodashGet data (String.mk (cleanDataPath e.dataPath.data)))
      then validationMessagesFormatters.presentString
      else validationMessagesFormatters.pattern e.params.pattern) ≠ "" := by
    by_cases hcond : e.params.pattern = ".+" ∧
        jsFalsy (lodashGet data (String.mk (cleanDataPath e.dataPath.data)))
    · rw [if_pos hcond]; decide
    · rw [if_neg hcond]; exact pattern_ne_empty _
  simp only [processValidationError, hdisp]
  rw [if_neg hne]

/-- C8: convertValidationErrors never fails: a failure whose keyword has no
dedicated switch case yields the generic fallback message built from the
failure message field, with a leading should replaced by must and the keyword
appended in parentheses; and an empty failure list yields the aliased section
name with an empty error mapping. -/
theorem convertValidationErrors_fallback_and_empty (data : JsonValue)
    (e : ValidationResult) (sec : String) (h : e.keyword ∉ handledKeywords) :
    (processValidationError data e).2 =
      replaceShould e.message ++ " (" ++ e.keyword ++ ")"
    ∧ convertValidationErrors sec data [] =
        ⟨if sec = "querystring" then "query" else sec, []⟩ := by
  refine ⟨?_, rfl⟩
  simp only [handledKeywords, List.mem_cons, List.not_mem_nil, or_false, not_or] at h
  obtain ⟨h1, h2, h3, h4, h5, h6, h7, h8, h9, h10, h11, h12, h13⟩ := h
  simp only [processValidationError, dispatchKeyword, h1, h2, h3, h4, h5, h6, h7, h8,
    h9, h10, h11, h12, h13, if_false, or_self, ite_false, if_true]

/-- C9 counterexample: the dedicated hostname formatter produces the message
must be a valid hostname, which contains no worked example (not even the word
example occurs in it), refuting the claim that every dedicated format message
carries a worked example. -/
theorem format_hostname_without_example :
    (processValidationError (JsonValue.object [])
      { keyword := "format", dataPath := ".h", message := "",
        params := { format := "hostname" } }).2 = "must be a valid hostname"
    ∧ containsStr "example" "must be a valid hostname" = false :=
  ⟨rfl, rfl⟩

/-- C9 (amended): for a format-kind failure the format name is first
normalized (date-time becomes timestamp) and a dedicated formatter is then
looked up under the normalized name in the formatter registry — uuid,
timestamp, date, time, hostname, ipv4 and ipv6 each have one, producing its
documented message (the timestamp, date and time messages include a worked
example) — and the invalidFormat message is used exactly when no formatter is
registered under the normalized name. -/
theorem convertValidationErrors_format_dispatch (f : String) (data : JsonValue)
    (h : (if f = "date-time" then "timestamp" else f) ∉ registryKeys) :
    (processValidationError (JsonValue.object [])
        { keyword := "format", dataPath := ".h", message := "",
          params := { format := "uuid" } }).2 = validationMessagesFormatters.uuid
    ∧ (processValidationError (JsonValue.object [])
        { keyword := "format", dataPath := ".h", message := "",
          params := { format := "date-time" } }).2 = validationMessagesFormatters.timestamp
    ∧ (processValidationError (JsonValue.object [])
        { keyword := "format", dataPath := ".h", message := "",
          params := { format := "date" } }).2 = validationMessagesFormatters.date
    ∧ (processValidationError (JsonValue.object [])
        { keyword := "format", dataPath := ".h", message := "",
          params := { format := "time" } }).2 = validationMessagesFormatters.time
    ∧ (processValidationError (JsonValue.object [])
        { keyword := "format", dataPath := ".h", message := "",
          params := { format := "hostname" } }).2 = validationMessagesFormatters.hostname
    ∧ (processValidationError (JsonValue.object [])
        { keyword := "format", dataPath := ".h", message := "",
          params := { format := "ipv4" } }).2 = validationMessagesFormatters.ipv4
    ∧ (processValidationError (JsonValue.object [])
        { keyword := "format", dataPath := ".h", message := "",
          params := { format := "ipv6" } }).2 = validationMessagesFormatters.ipv6
    ∧ containsStr "example:" validationMessagesFormatters.timestamp = true
    ∧ containsStr "example:" validationMessagesFormatters.date = true
    ∧ containsStr "example:" validationMessagesFormatters.time = true
    ∧ (processValidationError data
        { keyword := "format", dataPath := "", message := "",
          params := { format := f } }).2 =
        validationMessagesFormatters.invalidFormat
          (if f = "date-time" then "timestamp" else f) := by
  refine ⟨rfl, rfl, rfl, rfl, rfl, rfl, rfl, rfl, rfl, rfl, ?_⟩
  simp only [registryKeys, List.mem_cons, List.not_mem_nil, or_false, not_or] at h
  obtain ⟨h1, h2, h3, h4, h5, h6, h7, h8, h9, h10, h11, h12, h13, h14, h15, h16, h17,
    h18, h19, h20, h21, h22, h23, h24, h25⟩ := h
  have hnone : formatterStringApply (if f = "date-time" then "timestamp" else f) = none := by
    unfold formatterStringApply
    rw [if_neg h1, if_neg h2, if_neg h3, if_neg h4, if_neg h5, if_neg h6, if_neg h7,
      if_neg h8, if_neg h9, if_neg h10, if_neg h11, if_neg h12, if_neg h13, if_neg h14,
      if_neg h15, if_neg h16, if_neg h17, if_neg h18, if_neg h19, if_neg h20, if_neg h21,
      if_neg h22, if_neg h23, if_neg h24, if_neg h25]
  have hfb : formatBranch f =
      validationMessagesFormatters.invalidFormat (if f = "date-time" then "timestamp" else f) := by
    simp only [formatBranch]
    rw [hnone]
  have hred : (processValidationError data
      { keyword := "format", dataPath := "", message := "",
        params := { format := f } }).2 =
      (if formatBranch f = "" then replaceShould "" ++ " (" ++ "format" ++ ")"
       else formatBranch f) := rfl
  rw [hred, hfb, if_neg (invalidFormat_ne_empty _)]

/-- Witness for the C1 theorem at a concrete validator table, status code and
payload, with both hypotheses discharged by computation. -/
theorem preSerialization_declared_status_iff_valid_witness :
    ((201 : Nat) ≠ INTERNAL_SERVER_ERROR
      ∧ lookupAssoc [("201", alwaysInvalid)] (toString (201 : Nat)) = some alwaysInvalid)
    ∧ ((preSerializationHook [("201", alwaysInvalid)] 201 (JsonValue.object []) =
          PreSerializationResult.ok (JsonValue.object []) ↔
        (alwaysInvalid (JsonValue.object [])).1 = true)
      ∧ ((alwaysInvalid (JsonValue.object [])).1 = false →
          preSerializationHook [("201", alwaysInvalid)] 201 (JsonValue.object []) =
            PreSerializationResult.err INTERNAL_SERVER_ERROR
              (validationMessagesFormatters.invalidResponse 201)
              (some (convertValidationErrors "response" (JsonValue.object [])
                (alwaysInvalid (JsonValue.object [])).2))
          ∧ containsStr (toString (201 : Nat))
              (validationMessagesFormatters.invalidResponse 201) = true)) :=
  ⟨⟨by decide, rfl⟩,
    preSerialization_declared_status_iff_valid [("201", alwaysInvalid)] 201
      (JsonValue.object []) alwaysInvalid (by decide) rfl⟩

/-- Witness for the C2 theorem at a concrete empty validator table. -/
theorem preSerialization_undeclared_status_witness :
    ((201 : Nat) ≠ INTERNAL_SERVER_ERROR
      ∧ lookupAssoc ([] : List (String × (JsonValue → Bool × List ValidationResult)))
          (toString (201 : Nat)) = none)
    ∧ ((preSerializationHook [] 201 (JsonValue.object []) =
          PreSerializationResult.err INTERNAL_SERVER_ERROR
            (validationMessagesFormatters.invalidResponseCode 201) none
        ∧ containsStr (toString (201 : Nat))
            (validationMessagesFormatters.invalidResponseCode 201) = true)
      ∧ (∀ (f : JsonValue → Bool × List ValidationResult) (payload2 : JsonValue),
          preSerializationHook [("200", f)] 201 payload2 =
            PreSerializationResult.err INTERNAL_SERVER_ERROR
              (validationMessagesFormatters.invalidResponseCode 201) none
          ∧ containsStr "201"
              (validationMessagesFormatters.invalidResponseCode 201) = true)) :=
  ⟨⟨by decide, rfl⟩,
    preSerialization_undeclared_status [] 201 (JsonValue.object []) (by decide) rfl⟩

/-- Witness for the C7 theorem at a concrete pattern failure whose sentinel
pattern and absent value select the presentString message. -/
theorem convertValidationErrors_pattern_handling_witness :
    ({ keyword := "pattern", dataPath := ".x", message := "",
        params := { pattern := ".+" } } : ValidationResult).keyword = "pattern"
    ∧ ((processValidationError (JsonValue.object [])
          { keyword := "pattern", dataPath := ".x", message := "",
            params := { pattern := ".+" } }).2 =
        (if (".+" : String) = ".+" ∧
            jsFalsy (lodashGet (JsonValue.object [])
              (String.mk (cleanDataPath (".x" : String).data)))
         then validationMessagesFormatters.presentString
         else validationMessagesFormatters.pattern ".+")
      ∧ validationMessagesFormatters.pattern "(?:ab)+(?:c)" =
          "must match pattern \"(ab)+(c)\"") :=
  ⟨rfl,
    convertValidationErrors_pattern_handling (JsonValue.object [])
      { keyword := "pattern", dataPath := ".x", message := "",
        params := { pattern := ".+" } } rfl⟩

/-- Witness for the C8 theorem at a concrete failure with the unhandled
keyword const. -/
theorem convertValidationErrors_fallback_and_empty_witness :
    ({ keyword := "const", dataPath := "", message := "should be equal to constant",
        params := {} } : ValidationResult).keyword ∉ handledKeywords
    ∧ ((processValidationError (JsonValue.object [])
          { keyword := "const", dataPath := "", message := "should be equal to constant",
            params := {} }).2 =
        replaceShould "should be equal to constant" ++ " (" ++ "const" ++ ")"
      ∧ convertValidationErrors "querystring" (JsonValue.object []) [] =
          ⟨if ("querystring" : String) = "querystring" then "query" else "querystring", []⟩) :=
  ⟨by decide,
    convertValidationErrors_fallback_and_empty (JsonValue.object [])
      { keyword := "const", dataPath := "", message := "should be equal to constant",
        params := {} } "querystring" (by decide)⟩

/-- Witness for the C9 theorem at a concrete unregistered format name. -/
theorem convertValidationErrors_format_dispatch_witness :
    (if ("no-such-format" : String) = "date-time" then "timestamp" else "no-such-format") ∉
        registryKeys
    ∧ ((processValidationError (JsonValue.object [])
          { keyword := "format", dataPath := ".h", message := "",
            params := { format := "uuid" } }).2 = validationMessagesFormatters.uuid
      ∧ (processValidationError (JsonValue.object [])
          { keyword := "format", dataPath := ".h", message := "",
            params := { format := "date-time" } }).2 = validationMessagesFormatters.timestamp
      ∧ (processValidationError (JsonValue.object [])
          { keyword := "format", dataPath := ".h", message := "",
            params := { format := "date" } }).2 = validationMessagesFormatters.date
      ∧ (processValidationError (JsonValue.object [])
          { keyword := "format", dataPath := ".h", message := "",
            params := { format := "time" } }).2 = validationMessagesFormatters.time
      ∧ (processValidationError (JsonValue.object [])
          { keyword := "format", dataPath := ".h", message := "",
            params := { format := "hostname" } }).2 = validationMessagesFormatters.hostname
      ∧ (processValidationError (JsonValue.object [])
          { keyword := "format", dataPath := ".h", message := "",
            params := { format := "ipv4" } }).2 = validationMessagesFormatters.ipv4
      ∧ (processValidationError (JsonValue.object [])
          { keyword := "format", dataPath := ".h", message := "",
            params := { format := "ipv6" } }).2 = validationMessagesFormatters.ipv6
      ∧ containsStr "example:" validationMessagesFormatters.timestamp = true
      ∧ containsStr "example:" validationMessagesFormatters.date = true
      ∧ containsStr "example:" validationMessagesFormatters.time = true
      ∧ (processValidationError (JsonValue.object [])
          { keyword := "format", dataPath := "", message := "",
            params := { format := "no-such-format" } }).2 =
          validationMessagesFormatters.invalidFormat
            (if ("no-such-format" : String) = "date-time" then "timestamp"
             else "no-such-format")) :=
  ⟨by decide,
    convertValidationErrors_format_dispatch "no-such-format" (JsonValue.object [])
      (by decide)⟩
